import Mathlib

/-!
Verification of the `armi` mirror-synchronisation tool (`armi.py`) against its
natural-language design document.

The development is a shallow embedding of the core functions of `armi.py`:

* `check_packages`   embeds `_check_packages`   (package verifier);
* `load_packages`    embeds `_load_packages`    (manifest reader);
* `remove_redundant_files` embeds `_remove_redundant_files` (redundant-file GC);
* `fix_symlinks` / `fixOne` embed `_fix_symlinks` (symlink reconciler);
* `syncBranch` / `mainLoop` embed the per-branch retry loop and the
  branch iteration of `main`.

Modelling conventions:

* A package file system (`CFS`) maps a path to `some content` when the path is
  a regular file with that byte content, and to `none` otherwise (absent,
  directory, dangling symlink, ...).  `path.is_file()` is `Option.isSome`,
  and the chunked streaming read of `_check_packages` is modelled as reading
  the whole content: feeding a file to `md5` in `BUF_SIZE` chunks computes the
  digest of the concatenation of the chunks.
* The MD5 hex digest itself is an opaque parameter `md5hex`: no claim depends
  on the internals of the digest, only on how its result is compared.
* Filesystem reads are threaded through explicit state-passing helpers
  (`pathIsFile`, `readWholeFile`) so that the read-only (frame) behaviour of
  the verifier is a theorem about the embedding rather than an artefact of it.
* The symlink reconciler works on a directory model (`LinkFS`) mapping names
  inside the working directory to nodes (regular file, directory, or symlink
  with a target name in the same directory).  `Path.resolve()` is modelled
  with modern (Python >= 3.6) non-strict semantics: a dangling chain resolves
  to the unresolved final name without raising; only a symlink loop fails
  (the `RuntimeError` branch of the source).  Fuel `fs.length + 1` suffices
  to detect a loop in a finite directory.
* Network fetches (`_download_files`) are an external collaborator in the
  design document; the sync loop takes the fetch effect as an oracle
  `Nat → CFS → List String → CFS` (round number, state, names to fetch),
  and likewise takes the state effects of GC and symlink repair as oracles,
  since those operations act on a different granularity of state and are
  modelled precisely on their own.
-/

/-- A local file path, as built by `Path(work_dir, file_name)`:
the working directory plus the file name inside it. -/
structure FPath where
  dir : String
  name : String
deriving DecidableEq, Repr

/-- `Package` of `armi.py`: `path`, `size` (informational), `checksum`. -/
structure Package where
  path : FPath
  size : Int
  checksum : String
deriving DecidableEq, Repr

/-- Content-level view of the working directory: `some bytes` when the path is
a regular file (after following symlinks) with the given content, `none`
otherwise. -/
def CFS : Type := FPath → Option (List Nat)

/-- `ATTEMPTS = 2` in `armi.py`. -/
def ATTEMPTS : Nat := 2

/-- `package.path.is_file()`, as a state-passing read (it does not modify the
file system, and the embedding keeps that explicit). -/
def pathIsFile (fs : CFS) (p : FPath) : Bool × CFS :=
  ((fs p).isSome, fs)

/-- The chunked read loop of `_check_packages`, collapsed to reading the whole
content (digesting chunk by chunk digests the concatenation). -/
def readWholeFile (fs : CFS) (p : FPath) : Option (List Nat) × CFS :=
  (fs p, fs)

/-- Embedding of `_check_packages`: walk the package list in order; a record
whose path is not a regular file is counted `need_update` and appended to the
result; otherwise the file is digested and, on checksum mismatch, the record
is counted `broken` and appended.  Returns
(result, need_update_count, broken_count, final file system). -/
def check_packages (md5hex : List Nat → String) (fs : CFS) :
    List Package → List Package × Nat × Nat × CFS
  | [] => ([], 0, 0, fs)
  | p :: rest =>
    let s1 := pathIsFile fs p.path
    if s1.1 = false then
      let r := check_packages md5hex s1.2 rest
      (p :: r.1, r.2.1 + 1, r.2.2.1, r.2.2.2)
    else
      let s2 := readWholeFile s1.2 p.path
      let digest := md5hex (s2.1.getD [])
      let r := check_packages md5hex s2.2 rest
      if digest ≠ p.checksum then
        (p :: r.1, r.2.1, r.2.2.1 + 1, r.2.2.2)
      else
        (r.1, r.2.1, r.2.2.1, r.2.2.2)

/-- Spec-side description (from the design document, for the refinement claim):
a record is satisfied when its target path is a regular file whose content
digest equals the recorded checksum. -/
def specSatisfied (md5hex : List Nat → String) (fs : CFS) (p : Package) : Bool :=
  match fs p.path with
  | some content => md5hex content = p.checksum
  | none => false

/-- Spec-side: a record is missing when its target path is not a regular file. -/
def specMissing (fs : CFS) (p : Package) : Bool :=
  (fs p.path).isNone

/-- Spec-side: a record is broken when the file exists but its digest differs
from the recorded checksum. -/
def specBroken (md5hex : List Nat → String) (fs : CFS) (p : Package) : Bool :=
  match fs p.path with
  | some content => md5hex content ≠ p.checksum
  | none => false

/-- Spec-side outstanding subset: the records not currently satisfied locally,
in input order. -/
def specOutstanding (md5hex : List Nat → String) (fs : CFS) (ps : List Package) :
    List Package :=
  ps.filter (fun p => ¬ specSatisfied md5hex fs p)

/-- `C1` -- For every list of `Package` records, `_check_packages` returns exactly
the subset of records that are missing (path not a regular file) or broken
(on-disk digest differs from the recorded checksum), in input order; satisfied
records are excluded; and the two side-channel counters equal the number of
records classified missing resp. broken. -/
theorem c1_verifier_exact (md5hex : List Nat → String) (fs : CFS)
    (ps : List Package) :
    (check_packages md5hex fs ps).1 = specOutstanding md5hex fs ps ∧
    (check_packages md5hex fs ps).2.1 = (ps.filter (fun p => specMissing fs p)).length ∧
    (check_packages md5hex fs ps).2.2.1 = (ps.filter (fun p => specBroken md5hex fs p)).length := by
  induction ps with
  | nil => simp [check_packages, specOutstanding]
  | cons p rest ih =>
    obtain ⟨ih1, ih2, ih3⟩ := ih
    by_cases hf : (fs p.path).isSome
    · rcases ho : fs p.path with _ | content
      · rw [ho] at hf; simp at hf
      · by_cases hd : md5hex content = p.checksum
        · simp only [check_packages, pathIsFile, readWholeFile, hf, ho,
            specOutstanding, specSatisfied, specMissing, specBroken,
            List.filter_cons] at *
          simp [hf, ho, hd, ih1, ih2, ih3, specOutstanding, specSatisfied,
            specMissing, specBroken]
        · simp only [check_packages, pathIsFile, readWholeFile, hf, ho,
            specOutstanding, specSatisfied, specMissing, specBroken,
            List.filter_cons] at *
          simp [hf, ho, hd, ih1, ih2, ih3, specOutstanding, specSatisfied,
            specMissing, specBroken]
    · rcases ho : fs p.path with _ | content
      · simp only [check_packages, pathIsFile, readWholeFile] at *
        simp [ho, ih1, ih2, ih3, specOutstanding, specSatisfied, specMissing,
          specBroken, List.filter_cons]
      · rw [ho] at hf; simp at hf

/-- `C10` -- Package verification is read-only: the file-system state returned
by the verifier is exactly the input state (the embedding threads the state
through each read, and no operation writes). -/
theorem c10_check_readonly (md5hex : List Nat → String) (fs : CFS)
    (ps : List Package) :
    (check_packages md5hex fs ps).2.2.2 = fs := by
  induction ps with
  | nil => rfl
  | cons p rest ih =>
    by_cases hf : (fs p.path).isSome
    · by_cases hd : md5hex ((fs p.path).getD []) ≠ p.checksum
      · simp [check_packages, pathIsFile, readWholeFile, hf, hd, ih]
      · simp [check_packages, pathIsFile, readWholeFile, hf, hd, ih]
    · simp [check_packages, pathIsFile, readWholeFile, hf, ih]

/-- Pointwise relation: two records agree on everything the verifier reads
(path and checksum), while their `size` fields may differ arbitrarily. -/
def sameButSize (p q : Package) : Prop :=
  p.path = q.path ∧ p.checksum = q.checksum

/-- `C9` -- The `size` field is not used for verification: two input lists that
agree pointwise on paths and checksums (sizes arbitrary) yield pointwise
corresponding outstanding results and identical missing/broken counts, on any
file-system state. -/
theorem c9_size_irrelevant (md5hex : List Nat → String) (fs : CFS)
    (ps qs : List Package) (h : List.Forall₂ sameButSize ps qs) :
    List.Forall₂ sameButSize (check_packages md5hex fs ps).1
      (check_packages md5hex fs qs).1 ∧
    (check_packages md5hex fs ps).2.1 = (check_packages md5hex fs qs).2.1 ∧
    (check_packages md5hex fs ps).2.2.1 = (check_packages md5hex fs qs).2.2.1 := by
  induction h with
  | nil => exact ⟨List.Forall₂.nil, rfl, rfl⟩
  | cons hpq hrest ih =>
    rename_i p q ps' qs'
    obtain ⟨pp, psz, psum⟩ := p
    obtain ⟨qp, qsz, qsum⟩ := q
    obtain ⟨hpath, hsum⟩ := hpq
    simp only at hpath hsum
    subst hpath
    subst hsum
    obtain ⟨ih1, ih2, ih3⟩ := ih
    by_cases hf : (fs pp).isSome
    · by_cases hd : md5hex ((fs pp).getD []) ≠ psum
      · exact ⟨by simp [check_packages, pathIsFile, readWholeFile, hf, hd,
            List.Forall₂.cons, sameButSize, ih1],
          by simp [check_packages, pathIsFile, readWholeFile, hf, hd, ih2],
          by simp [check_packages, pathIsFile, readWholeFile, hf, hd, ih3]⟩
      · exact ⟨by simp [check_packages, pathIsFile, readWholeFile, hf, hd, ih1],
          by simp [check_packages, pathIsFile, readWholeFile, hf, hd, ih2],
          by simp [check_packages, pathIsFile, readWholeFile, hf, hd, ih3]⟩
    · exact ⟨by simp [check_packages, pathIsFile, readWholeFile, hf,
          List.Forall₂.cons, sameButSize, ih1],
        by simp [check_packages, pathIsFile, readWholeFile, hf, ih2],
        by simp [check_packages, pathIsFile, readWholeFile, hf, ih3]⟩

/-- Witness for `c9_size_irrelevant` at a concrete input: one-element lists that
differ only in `size`. -/
theorem c9_size_irrelevant_witness :
    List.Forall₂ sameButSize
      (check_packages (fun _ => "d") (fun _ => none)
        [⟨⟨"w", "a.pkg"⟩, 1, "c"⟩]).1
      (check_packages (fun _ => "d") (fun _ => none)
        [⟨⟨"w", "a.pkg"⟩, 999, "c"⟩]).1 ∧
    (check_packages (fun _ => "d") (fun _ => none)
        [⟨⟨"w", "a.pkg"⟩, 1, "c"⟩]).2.1 =
      (check_packages (fun _ => "d") (fun _ => none)
        [⟨⟨"w", "a.pkg"⟩, 999, "c"⟩]).2.1 ∧
    (check_packages (fun _ => "d") (fun _ => none)
        [⟨⟨"w", "a.pkg"⟩, 1, "c"⟩]).2.2.1 =
      (check_packages (fun _ => "d") (fun _ => none)
        [⟨⟨"w", "a.pkg"⟩, 999, "c"⟩]).2.2.1 :=
  c9_size_irrelevant (fun _ => "d") (fun _ => none) _ _
    (List.Forall₂.cons ⟨rfl, rfl⟩ List.Forall₂.nil)

/-- Python whitespace stripped by `str.strip()` (the ASCII part; descriptor
lines only ever carry trailing newlines). -/
def isSpaceChar (ch : Char) : Bool :=
  ch = ' ' || ch = '\t' || ch = '\n' || ch = '\r' || ch = '\x0b' || ch = '\x0c'

/-- Embedding of `line.strip()`: drop leading and trailing whitespace.
(Defined on the character list so that it evaluates structurally.) -/
def stripStr (s : String) : String :=
  ⟨((s.data.dropWhile isSpaceChar).reverse.dropWhile isSpaceChar).reverse⟩

/-- Digits of a decimal literal, or `none` when empty or non-numeric. -/
def digitsToNat : List Char → Option Nat
  | [] => none
  | l => l.foldl
      (fun acc ch => match acc with
        | none => none
        | some n => if ch.isDigit then some (n * 10 + (ch.toNat - 48)) else none)
      (some 0)

/-- Embedding of Python `int(s)` on an already-stripped string: an optional
sign followed by decimal digits; anything else raises `ValueError`. -/
def parsePyInt (s : String) : Option Int :=
  match s.data with
  | '-' :: rest => (digitsToNat rest).map (fun n => -(n : Int))
  | '+' :: rest => (digitsToNat rest).map (fun n => (n : Int))
  | l => (digitsToNat l).map (fun n => (n : Int))

/-- Embedding of `str.endswith(suffix)`. -/
def strEndsWith (s suffix : String) : Bool :=
  suffix.data.isSuffixOf s.data

/-- One entry of the manifest tar archive `{branch}.db.tar.gz`: its name,
whether it is a regular entry (`isreg()`), and its text lines (each line is
stripped and decoded by the reader; the model applies `stripStr` for
`line.strip()`). -/
structure TarEntry where
  name : String
  isReg : Bool
  lines : List String
deriving DecidableEq, Repr

/-- Errors the manifest reader can raise: the `RuntimeError` for an invalid
description (naming the offending entry), and the `ValueError` that
`int(cur_line)` raises on a non-numeric `%CSIZE%` value. -/
inductive LoadError
  | invalidDesc (entryName : String)
  | valueError (value : String)
deriving DecidableEq, Repr

/-- The line scan of `_load_packages` over one descriptor entry: track the
previous (stripped) line; on seeing a value line right after the
`%FILENAME%` / `%CSIZE%` / `%MD5SUM%` markers, capture it into the
corresponding slot.  Returns the three slots after the scan. -/
def scanLines :
    List String → Option String → Option String → Option Int → Option String →
    Except LoadError (Option String × Option Int × Option String)
  | [], _, f, s, c => .ok (f, s, c)
  | l :: ls, prev, f, s, c =>
    let cur := stripStr l
    if prev = some "%FILENAME%" then
      scanLines ls (some cur) (some cur) s c
    else if prev = some "%CSIZE%" then
      match parsePyInt cur with
      | some n => scanLines ls (some cur) f (some n) c
      | none => .error (.valueError cur)
    else if prev = some "%MD5SUM%" then
      scanLines ls (some cur) f s (some cur)
    else
      scanLines ls (some cur) f s c

/-- Python truthiness of an optional string: `None` and `''` are falsy. -/
def truthyStr : Option String → Bool
  | none => false
  | some s => s ≠ ""

/-- Python truthiness of an optional integer: `None` and `0` are falsy. -/
def truthyInt : Option Int → Bool
  | none => false
  | some n => n ≠ 0

/-- Handling of one descriptor entry in `_load_packages`: scan the lines, then
`if all((file_name, size, checksum))` yield the `Package`, else raise the
invalid-description error naming the entry. -/
def parseDescEntry (workDir entryName : String) (lines : List String) :
    Except LoadError Package :=
  match scanLines lines none none none none with
  | .error e => .error e
  | .ok (f, s, c) =>
    if truthyStr f && truthyInt s && truthyStr c then
      .ok { path := ⟨workDir, f.getD ""⟩, size := s.getD 0, checksum := c.getD "" }
    else
      .error (.invalidDesc entryName)

/-- Embedding of `_load_packages`: walk the archive entries in order, skip
entries that are not regular or whose name does not end in `desc`, parse each
descriptor entry, and collect the yielded packages.  The first error aborts
the read (the generator raises; its consumer in `main` forces it whole). -/
def load_packages (workDir : String) : List TarEntry → Except LoadError (List Package)
  | [] => .ok []
  | e :: es =>
    if e.isReg && strEndsWith e.name "desc" then
      match parseDescEntry workDir e.name e.lines with
      | .error err => .error err
      | .ok p => (load_packages workDir es).map (fun ps => p :: ps)
    else
      load_packages workDir es

/-- `C4` (counterexample) -- The claim says a record is yielded exactly when all
three required fields were captured.  In this entry all three slots are
captured (`%FILENAME% pkg.tar`, `%CSIZE% 0`, `%MD5SUM% abc`), yet the reader
raises the invalid-description error, because the truthiness test
`all((file_name, size, checksum))` also rejects a captured size of `0`. -/
theorem c4_counterexample :
    scanLines ["%FILENAME%", "pkg.tar", "%CSIZE%", "0", "%MD5SUM%", "abc"]
        none none none none =
      .ok (some "pkg.tar", some 0, some "abc") ∧
    parseDescEntry "wd" "pkg-1.0/desc"
        ["%FILENAME%", "pkg.tar", "%CSIZE%", "0", "%MD5SUM%", "abc"] =
      .error (.invalidDesc "pkg-1.0/desc") := by
  constructor <;> rfl

/-- `C4` (amended) -- For a descriptor entry whose line scan completes, the
reader yields a `Package` exactly when all three captured slots are truthy
(file name and digest captured and non-empty, size captured and non-zero);
whenever any slot is unset -- and also when a slot is captured but falsy, such
as a size of `0` -- it raises the invalid-description error naming the entry
and yields no record, in particular never a zero-size/empty package. -/
theorem c4_descriptor_fields (workDir entryName : String) (lines : List String)
    (f : Option String) (s : Option Int) (c : Option String)
    (hscan : scanLines lines none none none none = .ok (f, s, c)) :
    ((f = none ∨ s = none ∨ c = none) →
      parseDescEntry workDir entryName lines = .error (.invalidDesc entryName)) ∧
    ((truthyStr f && truthyInt s && truthyStr c) = true →
      parseDescEntry workDir entryName lines =
        .ok { path := ⟨workDir, f.getD ""⟩, size := s.getD 0, checksum := c.getD "" }) ∧
    (¬ ((truthyStr f && truthyInt s && truthyStr c) = true) →
      parseDescEntry workDir entryName lines = .error (.invalidDesc entryName)) := by
  refine ⟨?_, ?_, ?_⟩
  · rintro (h | h | h) <;>
      simp [parseDescEntry, hscan, h, truthyStr, truthyInt]
  · intro h
    simp [parseDescEntry, hscan, h]
  · intro h
    simp only [parseDescEntry, hscan]
    rw [if_neg h]

/-- Witness for `c4_descriptor_fields` at a concrete entry: a descriptor whose
`%MD5SUM%` slot is never set is rejected with the invalid-description error. -/
theorem c4_descriptor_fields_witness :
    ((some "pkg.tar" = none ∨ some (2 : Int) = none ∨ (none : Option String) = none) →
      parseDescEntry "wd" "pkg-1.0/desc" ["%FILENAME%", "pkg.tar", "%CSIZE%", "2"] =
        .error (.invalidDesc "pkg-1.0/desc")) ∧
    ((truthyStr (some "pkg.tar") && truthyInt (some 2) && truthyStr none) = true →
      parseDescEntry "wd" "pkg-1.0/desc" ["%FILENAME%", "pkg.tar", "%CSIZE%", "2"] =
        .ok { path := ⟨"wd", "pkg.tar"⟩, size := 2, checksum := "" }) ∧
    (¬ ((truthyStr (some "pkg.tar") && truthyInt (some 2) && truthyStr none) = true) →
      parseDescEntry "wd" "pkg-1.0/desc" ["%FILENAME%", "pkg.tar", "%CSIZE%", "2"] =
        .error (.invalidDesc "pkg-1.0/desc")) :=
  c4_descriptor_fields "wd" "pkg-1.0/desc" ["%FILENAME%", "pkg.tar", "%CSIZE%", "2"]
    (some "pkg.tar") (some 2) none (by rfl)

/-- Observable events of one branch's sync loop, in order: a verification pass
(with the names of the outstanding records it produced), a fetch round (the
names handed to `_download_files`), the redundant-file GC, the symlink repair,
and the two terminal classifications. -/
inductive SyncEv
  | verify (outstanding : List String)
  | fetchRound (names : List String)
  | gcRun
  | fixRun
  | convergedEv
  | exhaustedEv
deriving DecidableEq, Repr

/-- The retry loop of `main` (`for attempt in range(ATTEMPTS)`), recursing on
the remaining attempt budget.  Each iteration runs the verifier on
`target_packages or packages` (the previous outstanding set if non-empty,
else the full manifest); an empty result converges the branch and runs GC and
symlink repair; otherwise the outstanding names are fetched and the next
iteration begins.  An exhausted budget is the for-else branch: the branch is
marked failed.  The state effects of fetching, GC and symlink repair on the
content-level state are oracles here (GC and symlink repair are modelled
precisely on their own state model below).
Returns (event trace, converged flag, final state). -/
def syncAux (fetch : Nat → CFS → List String → CFS) (gcEff fixEff : CFS → CFS)
    (md5hex : List Nat → String) (packages : List Package) :
    Nat → Nat → CFS → List Package → List SyncEv × Bool × CFS
  | 0, _, fs, _ => ([SyncEv.exhaustedEv], false, fs)
  | budget + 1, round, fs, target =>
    let r := check_packages md5hex fs (if target = [] then packages else target)
    let names := r.1.map (fun p => p.path.name)
    if r.1 = [] then
      ([SyncEv.verify names, SyncEv.gcRun, SyncEv.fixRun, SyncEv.convergedEv],
        true, fixEff (gcEff r.2.2.2))
    else
      let rest := syncAux fetch gcEff fixEff md5hex packages budget (round + 1)
        (fetch round r.2.2.2 names) r.1
      (SyncEv.verify names :: SyncEv.fetchRound names :: rest.1, rest.2.1, rest.2.2)

/-- One branch's sync pass: the retry loop started with the full attempt
budget, round `0`, and an empty previous outstanding set. -/
def syncBranch (fetch : Nat → CFS → List String → CFS) (gcEff fixEff : CFS → CFS)
    (md5hex : List Nat → String) (packages : List Package) (fs : CFS) :
    List SyncEv × Bool × CFS :=
  syncAux fetch gcEff fixEff md5hex packages ATTEMPTS 0 fs []

/-- Number of fetch rounds in a trace. -/
def countFetch (tr : List SyncEv) : Nat :=
  tr.countP (fun e => match e with | SyncEv.fetchRound _ => true | _ => false)

/-- The data `main` has for one branch: the working directory, the manifest
archive entries, the initial content state, and the branch's effect oracles. -/
structure BranchJob where
  workDir : String
  branch : String
  entries : List TarEntry
  fs : CFS
  fetch : Nat → CFS → List String → CFS
  gcEff : CFS → CFS
  fixEff : CFS → CFS

/-- The resort in `main`: `sorted(..., key=attrgetter('size'), reverse=True)`,
a stable descending sort by expected size. -/
def sortBySizeDesc (ps : List Package) : List Package :=
  List.insertionSort (fun a b => b.size ≤ a.size) ps

/-- The branch iteration of `main`: for each branch, load the manifest, sort
it, and run the sync loop; a load error propagates uncaught (nothing in `main`
catches it), so the iteration stops there.  Returns (the traces of the
branches that ran, the uncaught error if any, the aggregate `errors` flag). -/
def mainLoop (md5hex : List Nat → String) :
    List BranchJob → List (List SyncEv) × Option LoadError × Bool
  | [] => ([], none, false)
  | j :: rest =>
    match load_packages j.workDir j.entries with
    | .error e => ([], some e, false)
    | .ok pkgs =>
      let r := syncBranch j.fetch j.gcEff j.fixEff md5hex (sortBySizeDesc pkgs) j.fs
      let restR := mainLoop md5hex rest
      (r.1 :: restR.1, restR.2.1, (!r.2.1) || restR.2.2)

/-- The process exit status: an uncaught exception terminates Python with
status 1; otherwise `main` calls `exit(1)` exactly when the aggregate
`errors` flag is set. -/
def mainExitCode (md5hex : List Nat → String) (jobs : List BranchJob) : Nat :=
  match mainLoop md5hex jobs with
  | (_, some _, _) => 1
  | (_, none, errs) => if errs then 1 else 0

/-- A sync-loop trace is never empty. -/
theorem syncAux_ne_nil (fetch : Nat → CFS → List String → CFS)
    (gcEff fixEff : CFS → CFS) (md5hex : List Nat → String)
    (packages : List Package) (budget round : Nat) (fs : CFS)
    (target : List Package) :
    (syncAux fetch gcEff fixEff md5hex packages budget round fs target).1 ≠ [] := by
  cases budget with
  | zero => simp [syncAux]
  | succ b =>
    simp only [syncAux]
    by_cases h0 : (check_packages md5hex fs (if target = [] then packages else target)).1 = []
    · rw [if_pos h0]; simp
    · rw [if_neg h0]; simp

/-- The loop performs at most `budget` fetch rounds. -/
theorem syncAux_countFetch (fetch : Nat → CFS → List String → CFS)
    (gcEff fixEff : CFS → CFS) (md5hex : List Nat → String)
    (packages : List Package) (budget : Nat) :
    ∀ round fs target,
      countFetch (syncAux fetch gcEff fixEff md5hex packages budget round fs target).1 ≤
        budget := by
  induction budget with
  | zero => intro round fs target; simp [syncAux, countFetch]
  | succ b ih =>
    intro round fs target
    simp only [syncAux]
    by_cases h0 : (check_packages md5hex fs (if target = [] then packages else target)).1 = []
    · rw [if_pos h0]; simp [countFetch]
    · rw [if_neg h0]
      have h3 := ih (round + 1)
        (fetch round (check_packages md5hex fs (if target = [] then packages else target)).2.2.2
          ((check_packages md5hex fs (if target = [] then packages else target)).1.map
            (fun p => p.path.name)))
        (check_packages md5hex fs (if target = [] then packages else target)).1
      simp [countFetch, List.countP_cons] at h3 ⊢
      omega

/-- The trace always ends in a terminal classification. -/
theorem syncAux_last_term (fetch : Nat → CFS → List String → CFS)
    (gcEff fixEff : CFS → CFS) (md5hex : List Nat → String)
    (packages : List Package) (budget : Nat) :
    ∀ round fs target,
      (syncAux fetch gcEff fixEff md5hex packages budget round fs target).1.getLast? =
          some SyncEv.convergedEv ∨
        (syncAux fetch gcEff fixEff md5hex packages budget round fs target).1.getLast? =
          some SyncEv.exhaustedEv := by
  induction budget with
  | zero => intro round fs target; simp [syncAux]
  | succ b ih =>
    intro round fs target
    simp only [syncAux]
    by_cases h0 : (check_packages md5hex fs (if target = [] then packages else target)).1 = []
    · rw [if_pos h0]; left; rfl
    · rw [if_neg h0]
      have h2 := ih (round + 1)
        (fetch round (check_packages md5hex fs (if target = [] then packages else target)).2.2.2
          ((check_packages md5hex fs (if target = [] then packages else target)).1.map
            (fun p => p.path.name)))
        (check_packages md5hex fs (if target = [] then packages else target)).1
      rcases hne : (syncAux fetch gcEff fixEff md5hex packages b (round + 1)
          (fetch round (check_packages md5hex fs (if target = [] then packages else target)).2.2.2
            ((check_packages md5hex fs (if target = [] then packages else target)).1.map
              (fun p => p.path.name)))
          (check_packages md5hex fs (if target = [] then packages else target)).1).1
        with _ | ⟨a, l⟩
      · exact absurd hne (syncAux_ne_nil fetch gcEff fixEff md5hex packages b (round + 1) _ _)
      · rw [hne] at h2
        rw [hne]
        simpa using h2

/-- GC ran only on success. -/
theorem syncAux_gc_ok (fetch : Nat → CFS → List String → CFS)
    (gcEff fixEff : CFS → CFS) (md5hex : List Nat → String)
    (packages : List Package) (budget : Nat) :
    ∀ round fs target,
      SyncEv.gcRun ∈ (syncAux fetch gcEff fixEff md5hex packages budget round fs target).1 →
        (syncAux fetch gcEff fixEff md5hex packages budget round fs target).2.1 = true := by
  induction budget with
  | zero => intro round fs target h; simp [syncAux] at h
  | succ b ih =>
    intro round fs target
    simp only [syncAux]
    by_cases h0 : (check_packages md5hex fs (if target = [] then packages else target)).1 = []
    · rw [if_pos h0]; intro _; rfl
    · rw [if_neg h0]
      simp only [List.mem_cons]
      rintro (h | h | h)
      · exact absurd h (by simp)
      · exact absurd h (by simp)
      · exact ih (round + 1) _ _ h

/-- Symlink repair ran only on success. -/
theorem syncAux_fix_ok (fetch : Nat → CFS → List String → CFS)
    (gcEff fixEff : CFS → CFS) (md5hex : List Nat → String)
    (packages : List Package) (budget : Nat) :
    ∀ round fs target,
      SyncEv.fixRun ∈ (syncAux fetch gcEff fixEff md5hex packages budget round fs target).1 →
        (syncAux fetch gcEff fixEff md5hex packages budget round fs target).2.1 = true := by
  induction budget with
  | zero => intro round fs target h; simp [syncAux] at h
  | succ b ih =>
    intro round fs target
    simp only [syncAux]
    by_cases h0 : (check_packages md5hex fs (if target = [] then packages else target)).1 = []
    · rw [if_pos h0]; intro _; rfl
    · rw [if_neg h0]
      simp only [List.mem_cons]
      rintro (h | h | h)
      · exact absurd h (by simp)
      · exact absurd h (by simp)
      · exact ih (round + 1) _ _ h

/-- A failed loop's trace ends in the Exhausted marker. -/
theorem syncAux_fail_last (fetch : Nat → CFS → List String → CFS)
    (gcEff fixEff : CFS → CFS) (md5hex : List Nat → String)
    (packages : List Package) (budget : Nat) :
    ∀ round fs target,
      (syncAux fetch gcEff fixEff md5hex packages budget round fs target).2.1 = false →
        (syncAux fetch gcEff fixEff md5hex packages budget round fs target).1.getLast? =
          some SyncEv.exhaustedEv := by
  induction budget with
  | zero => intro round fs target _; simp [syncAux]
  | succ b ih =>
    intro round fs target
    simp only [syncAux]
    by_cases h0 : (check_packages md5hex fs (if target = [] then packages else target)).1 = []
    · rw [if_pos h0]; intro h; simp at h
    · rw [if_neg h0]
      intro h
      have h2 := ih (round + 1)
        (fetch round (check_packages md5hex fs (if target = [] then packages else target)).2.2.2
          ((check_packages md5hex fs (if target = [] then packages else target)).1.map
            (fun p => p.path.name)))
        (check_packages md5hex fs (if target = [] then packages else target)).1 h
      rcases hne : (syncAux fetch gcEff fixEff md5hex packages b (round + 1)
          (fetch round (check_packages md5hex fs (if target = [] then packages else target)).2.2.2
            ((check_packages md5hex fs (if target = [] then packages else target)).1.map
              (fun p => p.path.name)))
          (check_packages md5hex fs (if target = [] then packages else target)).1).1
        with _ | ⟨a, l⟩
      · exact absurd hne (syncAux_ne_nil fetch gcEff fixEff md5hex packages b (round + 1) _ _)
      · rw [hne] at h2
        rw [hne]
        simpa using h2

/-- The Exhausted marker appears only in failed traces. -/
theorem syncAux_exh_fail (fetch : Nat → CFS → List String → CFS)
    (gcEff fixEff : CFS → CFS) (md5hex : List Nat → String)
    (packages : List Package) (budget : Nat) :
    ∀ round fs target,
      SyncEv.exhaustedEv ∈ (syncAux fetch gcEff fixEff md5hex packages budget round fs target).1 →
        (syncAux fetch gcEff fixEff md5hex packages budget round fs target).2.1 = false := by
  induction budget with
  | zero => intro round fs target _; rfl
  | succ b ih =>
    intro round fs target
    simp only [syncAux]
    by_cases h0 : (check_packages md5hex fs (if target = [] then packages else target)).1 = []
    · rw [if_pos h0]; intro h; simp at h
    · rw [if_neg h0]
      simp only [List.mem_cons]
      rintro (h | h | h)
      · exact absurd h (by simp)
      · exact absurd h (by simp)
      · exact ih (round + 1) _ _ h

/-- Shape of a sync-loop trace: zero or more (verify, fetch) rounds with a
non-empty outstanding set, ended either by a verify pass that found nothing
outstanding followed by GC, symlink repair and the Converged marker, or by
the Exhausted marker (which therefore directly follows the last fetch). -/
inductive TraceShape : List SyncEv → Prop
  | conv : TraceShape [SyncEv.verify [], SyncEv.gcRun, SyncEv.fixRun, SyncEv.convergedEv]
  | exh : TraceShape [SyncEv.exhaustedEv]
  | step (ns : List String) (tl : List SyncEv) : ns ≠ [] → TraceShape tl →
      TraceShape (SyncEv.verify ns :: SyncEv.fetchRound ns :: tl)

/-- Every sync-loop trace has the shape `TraceShape`. -/
theorem syncAux_shape (fetch : Nat → CFS → List String → CFS)
    (gcEff fixEff : CFS → CFS) (md5hex : List Nat → String)
    (packages : List Package) (budget : Nat) :
    ∀ round fs target,
      TraceShape (syncAux fetch gcEff fixEff md5hex packages budget round fs target).1 := by
  induction budget with
  | zero => intro round fs target; exact TraceShape.exh
  | succ b ih =>
    intro round fs target
    simp only [syncAux]
    by_cases h0 : (check_packages md5hex fs (if target = [] then packages else target)).1 = []
    · rw [if_pos h0]
      simp only [h0, List.map_nil]
      exact TraceShape.conv
    · rw [if_neg h0]
      exact TraceShape.step _ _ (by simp [h0]) (ih (round + 1) _ _)

/-- The first event of any run with a positive budget is a verify pass. -/
theorem syncAux_head (fetch : Nat → CFS → List String → CFS)
    (gcEff fixEff : CFS → CFS) (md5hex : List Nat → String)
    (packages : List Package) (budget round : Nat) (fs : CFS)
    (target : List Package) :
    ∃ ns,
      (syncAux fetch gcEff fixEff md5hex packages (budget + 1) round fs target).1.head? =
        some (SyncEv.verify ns) := by
  simp only [syncAux]
  by_cases h0 : (check_packages md5hex fs (if target = [] then packages else target)).1 = []
  · simp only [if_pos h0]
    exact ⟨_, rfl⟩
  · simp only [if_neg h0]
    exact ⟨_, rfl⟩

/-- A failed run's trace is either the bare Exhausted marker (budget already
zero) or ends with a fetch round immediately followed by the Exhausted
marker: the files written by the final fetch are never re-verified. -/
theorem syncAux_fail_shape (fetch : Nat → CFS → List String → CFS)
    (gcEff fixEff : CFS → CFS) (md5hex : List Nat → String)
    (packages : List Package) (budget : Nat) :
    ∀ round fs target,
      (syncAux fetch gcEff fixEff md5hex packages budget round fs target).2.1 = false →
        (syncAux fetch gcEff fixEff md5hex packages budget round fs target).1 =
            [SyncEv.exhaustedEv] ∨
          ∃ pre ns,
            (syncAux fetch gcEff fixEff md5hex packages budget round fs target).1 =
              pre ++ [SyncEv.fetchRound ns, SyncEv.exhaustedEv] := by
  induction budget with
  | zero => intro round fs target _; left; rfl
  | succ b ih =>
    intro round fs target
    simp only [syncAux]
    by_cases h0 : (check_packages md5hex fs (if target = [] then packages else target)).1 = []
    · simp only [if_pos h0]; intro h; simp at h
    · simp only [if_neg h0]
      intro h
      rcases ih (round + 1)
          (fetch round (check_packages md5hex fs (if target = [] then packages else target)).2.2.2
            ((check_packages md5hex fs (if target = [] then packages else target)).1.map
              (fun p => p.path.name)))
          (check_packages md5hex fs (if target = [] then packages else target)).1 h
        with h1 | ⟨pre, ns, h1⟩
      · right
        refine ⟨[SyncEv.verify ((check_packages md5hex fs
            (if target = [] then packages else target)).1.map (fun p => p.path.name))],
          (check_packages md5hex fs
            (if target = [] then packages else target)).1.map (fun p => p.path.name), ?_⟩
        rw [h1]
        rfl
      · right
        refine ⟨SyncEv.verify ((check_packages md5hex fs
            (if target = [] then packages else target)).1.map (fun p => p.path.name)) ::
          SyncEv.fetchRound ((check_packages md5hex fs
            (if target = [] then packages else target)).1.map (fun p => p.path.name)) :: pre,
          ns, ?_⟩
        rw [h1]
        rfl

/-- If any branch's trace contains the Exhausted marker, the aggregate
`errors` flag of the branch iteration is set. -/
theorem mainLoop_exh_flag (md5hex : List Nat → String) :
    ∀ jobs t, t ∈ (mainLoop md5hex jobs).1 → SyncEv.exhaustedEv ∈ t →
      (mainLoop md5hex jobs).2.2 = true := by
  intro jobs
  induction jobs with
  | nil => intro t ht _; simp [mainLoop] at ht
  | cons j rest ih =>
    intro t ht hexh
    rcases hload : load_packages j.workDir j.entries with e | pkgs
    · simp only [mainLoop, hload] at ht
      simp at ht
    · simp only [mainLoop, hload] at ht ⊢
      simp only [List.mem_cons] at ht
      rcases ht with rfl | ht
      · have hfail := syncAux_exh_fail j.fetch j.gcEff j.fixEff md5hex
          (sortBySizeDesc pkgs) ATTEMPTS 0 j.fs [] hexh
        simp only [syncBranch] at *
        simp [hfail]
      · have := ih t ht hexh
        simp [this]

/-- Constantly-failing digest oracle used by the concrete fixtures. -/
def md5Fix : List Nat → String := fun _ => "x"

/-- The empty working directory: no regular files at all. -/
def emptyCFS : CFS := fun _ => none

/-- A fetch oracle whose downloads never materialise any file (every attempt
fails, which `_download` swallows after its internal retries). -/
def noFetch : Nat → CFS → List String → CFS := fun _ s _ => s

/-- A single manifest record used by the C2 fixtures. -/
def onePkg : Package := { path := { dir := "w", name := "p1" }, size := 5, checksum := "c" }

/-- A single manifest record used by the C3 fixtures. -/
def cexPkg : Package := { path := { dir := "w", name := "p9" }, size := 3, checksum := "z" }

/-- A well-formed descriptor entry for `onePkg`. -/
def descEntryGood : TarEntry :=
  { name := "p/desc", isReg := true,
    lines := ["%FILENAME%", "p1", "%CSIZE%", "5", "%MD5SUM%", "c"] }

/-- A corrupt descriptor entry: `%CSIZE%` and `%MD5SUM%` never set. -/
def descEntryBad : TarEntry :=
  { name := "q/desc", isReg := true, lines := ["%FILENAME%", "p2"] }

/-- A branch whose manifest is empty: it converges immediately. -/
def jobGood : BranchJob :=
  { workDir := "w", branch := "core", entries := [], fs := emptyCFS,
    fetch := noFetch, gcEff := id, fixEff := id }

/-- A branch whose manifest archive is corrupt. -/
def jobBad : BranchJob :=
  { workDir := "w", branch := "extra", entries := [descEntryBad], fs := emptyCFS,
    fetch := noFetch, gcEff := id, fixEff := id }

/-- A branch that can never converge: its one package never appears on disk. -/
def jobExhaust : BranchJob :=
  { workDir := "w", branch := "core", entries := [descEntryGood], fs := emptyCFS,
    fetch := noFetch, gcEff := id, fixEff := id }

/-- `C2` -- The sync loop performs at most `ATTEMPTS = 2` fetch rounds; every
trace ends in a terminal classification (never silently dropped); a branch
that does not converge has its trace end in the Exhausted marker and neither
GC nor symlink repair is run for it; and if any branch of a run is exhausted,
the process exits with a non-zero status. -/
theorem c2_retry_budget (fetch : Nat → CFS → List String → CFS)
    (gcEff fixEff : CFS → CFS) (md5hex : List Nat → String)
    (packages : List Package) (fs : CFS) (jobs : List BranchJob) :
    countFetch (syncBranch fetch gcEff fixEff md5hex packages fs).1 ≤ ATTEMPTS ∧
    ((syncBranch fetch gcEff fixEff md5hex packages fs).1.getLast? =
        some SyncEv.convergedEv ∨
      (syncBranch fetch gcEff fixEff md5hex packages fs).1.getLast? =
        some SyncEv.exhaustedEv) ∧
    ((syncBranch fetch gcEff fixEff md5hex packages fs).2.1 = false →
      (syncBranch fetch gcEff fixEff md5hex packages fs).1.getLast? =
          some SyncEv.exhaustedEv ∧
        SyncEv.gcRun ∉ (syncBranch fetch gcEff fixEff md5hex packages fs).1 ∧
        SyncEv.fixRun ∉ (syncBranch fetch gcEff fixEff md5hex packages fs).1) ∧
    ((∃ t ∈ (mainLoop md5hex jobs).1, SyncEv.exhaustedEv ∈ t) →
      mainExitCode md5hex jobs = 1) := by
  refine ⟨syncAux_countFetch fetch gcEff fixEff md5hex packages ATTEMPTS 0 fs [],
    syncAux_last_term fetch gcEff fixEff md5hex packages ATTEMPTS 0 fs [], ?_, ?_⟩
  · intro hfail
    refine ⟨syncAux_fail_last fetch gcEff fixEff md5hex packages ATTEMPTS 0 fs [] hfail,
      ?_, ?_⟩
    · intro hmem
      have := syncAux_gc_ok fetch gcEff fixEff md5hex packages ATTEMPTS 0 fs [] hmem
      rw [syncBranch] at hfail
      rw [this] at hfail
      exact absurd hfail (by simp)
    · intro hmem
      have := syncAux_fix_ok fetch gcEff fixEff md5hex packages ATTEMPTS 0 fs [] hmem
      rw [syncBranch] at hfail
      rw [this] at hfail
      exact absurd hfail (by simp)
  · rintro ⟨t, ht, hexh⟩
    have hflag := mainLoop_exh_flag md5hex jobs t ht hexh
    unfold mainExitCode
    rcases hm : mainLoop md5hex jobs with ⟨trs, err, flag⟩
    rw [hm] at hflag
    rcases err with _ | e
    · simp at hflag
      simp [hflag]
    · rfl

/-- Witness for `c2_retry_budget` at a concrete never-converging branch. -/
theorem c2_retry_budget_witness :
    countFetch (syncBranch noFetch id id md5Fix [onePkg] emptyCFS).1 ≤ ATTEMPTS ∧
    ((syncBranch noFetch id id md5Fix [onePkg] emptyCFS).1.getLast? =
        some SyncEv.convergedEv ∨
      (syncBranch noFetch id id md5Fix [onePkg] emptyCFS).1.getLast? =
        some SyncEv.exhaustedEv) ∧
    ((syncBranch noFetch id id md5Fix [onePkg] emptyCFS).1.getLast? =
        some SyncEv.exhaustedEv ∧
      SyncEv.gcRun ∉ (syncBranch noFetch id id md5Fix [onePkg] emptyCFS).1 ∧
      SyncEv.fixRun ∉ (syncBranch noFetch id id md5Fix [onePkg] emptyCFS).1) ∧
    mainExitCode md5Fix [jobExhaust] = 1 := by
  obtain ⟨h1, h2, h3, h4⟩ :=
    c2_retry_budget noFetch id id md5Fix [onePkg] emptyCFS [jobExhaust]
  exact ⟨h1, h2, h3 (by decide), h4 (by decide)⟩

/-- `C3` (counterexample) -- The claim says the branch is terminally classified
only from a Verifying state.  On a branch with one permanently missing
package, the trace is verify, fetch, verify, fetch, Exhausted: the event
immediately preceding the terminal classification is a fetch round, whose
written files are never re-verified. -/
theorem c3_counterexample :
    (syncBranch noFetch id id md5Fix [cexPkg] emptyCFS).1 =
      [SyncEv.verify ["p9"], SyncEv.fetchRound ["p9"], SyncEv.verify ["p9"],
        SyncEv.fetchRound ["p9"], SyncEv.exhaustedEv] ∧
    (syncBranch noFetch id id md5Fix [cexPkg] emptyCFS).1.dropLast.getLast? =
      some (SyncEv.fetchRound ["p9"]) := by
  exact ⟨by decide, by decide⟩

/-- `C3` (amended) -- Every trace of the sync loop consists of (verify, fetch)
rounds ended either by a verify pass that found nothing outstanding, followed
by GC, symlink repair and Converged -- so Converged is decided only by a
verification pass -- or by the Exhausted marker; and a branch that fails is
classified Exhausted immediately after its final fetch round, with no
verification of the files that round wrote. -/
theorem c3_terminal_states (fetch : Nat → CFS → List String → CFS)
    (gcEff fixEff : CFS → CFS) (md5hex : List Nat → String)
    (packages : List Package) (fs : CFS) :
    TraceShape (syncBranch fetch gcEff fixEff md5hex packages fs).1 ∧
    ((syncBranch fetch gcEff fixEff md5hex packages fs).2.1 = false →
      ∃ pre ns, (syncBranch fetch gcEff fixEff md5hex packages fs).1 =
        pre ++ [SyncEv.fetchRound ns, SyncEv.exhaustedEv]) := by
  constructor
  · exact syncAux_shape fetch gcEff fixEff md5hex packages ATTEMPTS 0 fs []
  · intro h
    rcases syncAux_fail_shape fetch gcEff fixEff md5hex packages ATTEMPTS 0 fs [] h
      with h1 | h1
    · obtain ⟨ns, hh⟩ := syncAux_head fetch gcEff fixEff md5hex packages 1 0 fs []
      have hh2 : (syncBranch fetch gcEff fixEff md5hex packages fs).1.head? =
          some (SyncEv.verify ns) := hh
      have h1n : (syncBranch fetch gcEff fixEff md5hex packages fs).1 =
          [SyncEv.exhaustedEv] := h1
      rw [h1n] at hh2
      simp at hh2
    · exact h1

/-- Witness for `c3_terminal_states` at a concrete never-converging branch. -/
theorem c3_terminal_states_witness :
    TraceShape (syncBranch noFetch id id md5Fix [cexPkg] emptyCFS).1 ∧
    (∃ pre ns, (syncBranch noFetch id id md5Fix [cexPkg] emptyCFS).1 =
      pre ++ [SyncEv.fetchRound ns, SyncEv.exhaustedEv]) := by
  obtain ⟨h1, h2⟩ := c3_terminal_states noFetch id id md5Fix [cexPkg] emptyCFS
  exact ⟨h1, h2 (by decide)⟩

/-- `C5` (counterexample) -- The claim says a corrupt manifest terminates only
that branch and processing continues with the remaining branches.  With a
corrupt first branch and a healthy second branch, the run stops at the first
branch with the uncaught error and produces no trace at all -- the healthy
branch, which syncs fine on its own, is never attempted. -/
theorem c5_counterexample :
    mainLoop md5Fix [jobBad, jobGood] =
      ([], some (LoadError.invalidDesc "q/desc"), false) ∧
    mainLoop md5Fix [jobGood] =
      ([[SyncEv.verify [], SyncEv.gcRun, SyncEv.fixRun, SyncEv.convergedEv]],
        none, false) := by
  exact ⟨by decide, by decide⟩

/-- `C5` (amended) -- The corrupt-manifest error propagates uncaught out of the
branch iteration: the run aborts at the offending branch, the remaining
branches are never attempted (no traces are produced from the aborted
iteration onward), GC and symlink repair are skipped, and the process
terminates immediately with a non-zero status (unhandled exception), not
after all requested branches have been attempted. -/
theorem c5_corrupt_manifest_aborts (md5hex : List Nat → String)
    (bad : BranchJob) (rest : List BranchJob) (e : LoadError)
    (h : load_packages bad.workDir bad.entries = .error e) :
    mainLoop md5hex (bad :: rest) = ([], some e, false) ∧
    mainExitCode md5hex (bad :: rest) = 1 := by
  constructor
  · simp [mainLoop, h]
  · simp [mainExitCode, mainLoop, h]

/-- Witness for `c5_corrupt_manifest_aborts` at the concrete corrupt branch. -/
theorem c5_corrupt_manifest_aborts_witness :
    mainLoop md5Fix [jobBad, jobGood] =
      ([], some (LoadError.invalidDesc "q/desc"), false) ∧
    mainExitCode md5Fix [jobBad, jobGood] = 1 :=
  c5_corrupt_manifest_aborts md5Fix jobBad [jobGood]
    (LoadError.invalidDesc "q/desc") (by rfl)

/-- Embedding of `_remove_redundant_files`: list the directory entries, keep
the ones named like a service file or a current package, and unlink the rest,
iterating them in sorted order (`sorted(redundant_files)`; same-directory
`Path` ordering is name ordering).  Returns (the reported deletion list in
iteration order, the remaining directory entries). -/
def remove_redundant_files (entries : List String) (branch : String)
    (packagesNames : List String) : List String × List String :=
  let serviceFiles := [branch ++ ".db", branch ++ ".db.tar.gz",
    branch ++ ".files", branch ++ ".files.tar.gz"]
  let redundantFiles := entries.filter
    (fun n => n ∉ serviceFiles ∧ n ∉ packagesNames)
  let reported := List.insertionSort (fun a b => a ≤ b) redundantFiles
  (reported, reported.foldl (fun dir item => dir.filter (fun n => n ≠ item)) entries)

/-- Unlinking each name of a list in turn removes from the directory exactly
the entries whose name occurs in the list. -/
theorem foldl_unlink (L : List String) :
    ∀ e : List String,
      L.foldl (fun dir item => dir.filter (fun n => n ≠ item)) e =
        e.filter (fun n => n ∉ L) := by
  induction L with
  | nil => intro e; simp
  | cons a L ih =>
    intro e
    simp only [List.foldl_cons]
    rw [ih, List.filter_filter]
    apply List.filter_congr
    intro x _
    simp [List.mem_cons, not_or, Bool.and_comm]

/-- `C6` -- RedundantFileGC deletes exactly the directory entries whose names
are in neither the service-file set nor the manifest's package names: the
reported deletion list is that set difference in sorted (lexicographic)
order, the surviving directory content is exactly the entries in one of the
two sets (entries in either set are never removed), and GC runs only in
branch passes that converged. -/
theorem c6_gc_precision (entries : List String) (branch : String)
    (packagesNames : List String) :
    ((remove_redundant_files entries branch packagesNames).1).Perm
        (entries.filter (fun n =>
          n ∉ [branch ++ ".db", branch ++ ".db.tar.gz", branch ++ ".files",
              branch ++ ".files.tar.gz"] ∧ n ∉ packagesNames)) ∧
      List.Sorted (fun a b => a ≤ b)
        (remove_redundant_files entries branch packagesNames).1 ∧
      (remove_redundant_files entries branch packagesNames).2 =
        entries.filter (fun n =>
          n ∈ [branch ++ ".db", branch ++ ".db.tar.gz", branch ++ ".files",
              branch ++ ".files.tar.gz"] ∨ n ∈ packagesNames) ∧
      (∀ fetch gcEff fixEff md5hex packages fs,
        SyncEv.gcRun ∈ (syncBranch fetch gcEff fixEff md5hex packages fs).1 →
          (syncBranch fetch gcEff fixEff md5hex packages fs).2.1 = true) := by
  refine ⟨List.perm_insertionSort _ _, List.sorted_insertionSort _ _, ?_, ?_⟩
  · simp only [remove_redundant_files]
    rw [foldl_unlink]
    apply List.filter_congr
    intro x hx
    have hmem : x ∈ List.insertionSort (fun a b => a ≤ b)
        (entries.filter (fun n =>
          n ∉ [branch ++ ".db", branch ++ ".db.tar.gz", branch ++ ".files",
              branch ++ ".files.tar.gz"] ∧ n ∉ packagesNames)) ↔
        (x ∉ [branch ++ ".db", branch ++ ".db.tar.gz", branch ++ ".files",
            branch ++ ".files.tar.gz"] ∧ x ∉ packagesNames) := by
      rw [(List.perm_insertionSort _ _).mem_iff, List.mem_filter]
      simp [hx]
    rw [decide_eq_decide, hmem]
    tauto
  · intro fetch gcEff fixEff md5hex packages fs h
    exact syncAux_gc_ok fetch gcEff fixEff md5hex packages ATTEMPTS 0 fs [] h

/-- Witness for `c6_gc_precision` at a concrete directory with one stray
file, and a concrete converged branch for the ordering conjunct. -/
theorem c6_gc_precision_witness :
    ((remove_redundant_files ["b.db", "stray", "p1"] "b" ["p1"]).1).Perm
        (["b.db", "stray", "p1"].filter (fun n =>
          n ∉ ["b" ++ ".db", "b" ++ ".db.tar.gz", "b" ++ ".files",
              "b" ++ ".files.tar.gz"] ∧ n ∉ ["p1"])) ∧
      List.Sorted (fun a b => a ≤ b)
        (remove_redundant_files ["b.db", "stray", "p1"] "b" ["p1"]).1 ∧
      (remove_redundant_files ["b.db", "stray", "p1"] "b" ["p1"]).2 =
        ["b.db", "stray", "p1"].filter (fun n =>
          n ∈ ["b" ++ ".db", "b" ++ ".db.tar.gz", "b" ++ ".files",
              "b" ++ ".files.tar.gz"] ∨ n ∈ ["p1"]) ∧
      (syncBranch noFetch id id md5Fix [] emptyCFS).2.1 = true := by
  obtain ⟨h1, h2, h3, h4⟩ := c6_gc_precision ["b.db", "stray", "p1"] "b" ["p1"]
  exact ⟨h1, h2, h3, h4 noFetch id id md5Fix [] emptyCFS (by decide)⟩

/-- A directory entry as `_fix_symlinks` distinguishes them: a regular file,
a directory, or a symlink carrying its target name. -/
inductive FsNode
  | file
  | dir
  | symlink (target : String)
deriving DecidableEq, Repr

/-- Symlink-level model of the working directory: an association list from
names to nodes; a name absent from the list is absent on disk.  Symlink
targets are names in the same directory (the reconciler itself only creates
such relative links). -/
abbrev LinkFS : Type := List (String × FsNode)

/-- Look a name up in the directory. -/
def lookupNode : LinkFS → String → Option FsNode
  | [], _ => none
  | (k, v) :: rest, n => if k = n then some v else lookupNode rest n

/-- `path.unlink()` at the directory level: drop the entry. -/
def eraseNode (fs : LinkFS) (n : String) : LinkFS :=
  fs.filter (fun p => p.1 ≠ n)

/-- Create (or replace) the entry for a name. -/
def setNode (fs : LinkFS) (n : String) (v : FsNode) : LinkFS :=
  eraseNode fs n ++ [(n, v)]

/-- The filesystem operations `_fix_symlinks` can perform. -/
inductive LinkOp
  | unlink (name : String)
  | mklink (name target : String)
deriving DecidableEq, Repr

/-- The error `_fix_symlinks` can hit in this model: `unlink()` on a
directory raises. -/
inductive FsError
  | unlinkDir (name : String)
deriving DecidableEq, Repr

/-- `Path.resolve()` with modern non-strict semantics: follow the symlink
chain; a chain ending in a non-symlink or in an absent name resolves to that
name without raising; fuel exhaustion models the symlink-loop `RuntimeError`
(fuel `fs.length + 1` only runs out when a lookup repeats, i.e. on a genuine
loop). -/
def resolveName (fs : LinkFS) : Nat → String → Option String
  | 0, _ => none
  | fuel + 1, n =>
    match lookupNode fs n with
    | some (FsNode.symlink t) => resolveName fs fuel t
    | _ => some n

/-- One alias pair of `_fix_symlinks` (`link_path`, `target_name`): if the
alias is a symlink, resolve it, and unlink it when resolution fails (loop) or
resolves elsewhere than the expected target; then, if the alias is (no
longer) a symlink, unlink whatever sits there (raising on a directory) and
create a fresh relative symlink to the expected target. -/
def fixOne (fs : LinkFS) (aliasName targetName : String) :
    Except FsError (LinkFS × List LinkOp) :=
  let step1 : LinkFS × List LinkOp :=
    match lookupNode fs aliasName with
    | some (FsNode.symlink _) =>
      match resolveName fs (fs.length + 1) aliasName with
      | none => (eraseNode fs aliasName, [LinkOp.unlink aliasName])
      | some resolved =>
        if resolved = targetName then (fs, [])
        else (eraseNode fs aliasName, [LinkOp.unlink aliasName])
    | _ => (fs, [])
  match lookupNode step1.1 aliasName with
  | some (FsNode.symlink _) => Except.ok (step1.1, step1.2)
  | some FsNode.file =>
    Except.ok (setNode step1.1 aliasName (FsNode.symlink targetName),
      step1.2 ++ [LinkOp.unlink aliasName, LinkOp.mklink aliasName targetName])
  | some FsNode.dir => Except.error (FsError.unlinkDir aliasName)
  | none =>
    Except.ok (setNode step1.1 aliasName (FsNode.symlink targetName),
      step1.2 ++ [LinkOp.mklink aliasName targetName])

/-- Embedding of `_fix_symlinks`: the loop over the two alias pairs
`({branch}.db -> {branch}.db.tar.gz)` and
`({branch}.files -> {branch}.files.tar.gz)`, unrolled. -/
def fix_symlinks (branch : String) (fs : LinkFS) :
    Except FsError (LinkFS × List LinkOp) :=
  match fixOne fs (branch ++ "." ++ "db") (branch ++ "." ++ "db" ++ "." ++ "tar.gz") with
  | Except.error e => Except.error e
  | Except.ok r1 =>
    match fixOne r1.1 (branch ++ "." ++ "files")
        (branch ++ "." ++ "files" ++ "." ++ "tar.gz") with
    | Except.error e => Except.error e
    | Except.ok r2 => Except.ok (r2.1, r1.2 ++ r2.2)

/-- Lookup after erasing: the erased name is gone, others are untouched. -/
theorem lookup_eraseNode (fs : LinkFS) (n m : String) :
    lookupNode (eraseNode fs n) m = if m = n then none else lookupNode fs m := by
  induction fs with
  | nil => simp [eraseNode, lookupNode]
  | cons p rest ih =>
    obtain ⟨k, v⟩ := p
    simp only [eraseNode, List.filter_cons] at ih ⊢
    by_cases hkn : k = n
    · subst hkn
      rw [if_neg (by simp)]
      rw [ih]
      by_cases hmk : m = k
      · simp [hmk, lookupNode]
      · simp [hmk, lookupNode]
        rw [if_neg (fun h : k = m => hmk h.symm)]
    · rw [if_pos (by simp [hkn])]
      by_cases hkm : k = m
      · subst hkm
        have hmn : ¬(k = n) := hkn
        simp [lookupNode, hmn]
      · simp only [lookupNode, if_neg hkm]
        rw [ih]

/-- Lookup after setting: the set name holds the new node, others are
untouched. -/
theorem lookup_setNode (fs : LinkFS) (n : String) (v : FsNode) (m : String) :
    lookupNode (setNode fs n v) m = if m = n then some v else lookupNode fs m := by
  have key : ∀ l1 l2 : LinkFS, ∀ x,
      lookupNode (l1 ++ l2) x =
        match lookupNode l1 x with
        | some w => some w
        | none => lookupNode l2 x := by
    intro l1
    induction l1 with
    | nil => intro l2 x; simp [lookupNode]
    | cons p rest ih =>
      intro l2 x
      obtain ⟨k, w⟩ := p
      by_cases hkx : k = x
      · simp [lookupNode, hkx]
      · simp only [List.cons_append, lookupNode, if_neg hkx]
        exact ih l2 x
  rw [setNode, key, lookup_eraseNode]
  by_cases hmn : m = n
  · simp [hmn, lookupNode]
  · cases hl : lookupNode fs m with
    | none =>
      simp [hmn, hl, lookupNode]
      exact fun h => hmn h.symm
    | some w => simp [hmn, hl, lookupNode]

/-- Resolution of a one-step chain: a symlink whose target's node is not a
symlink resolves (non-strictly) to the target name, whether or not the target
exists. -/
theorem resolve_direct (fs : LinkFS) (a t : String) (fuel : Nat)
    (ha : lookupNode fs a = some (FsNode.symlink t))
    (ht : ∀ u, lookupNode fs t ≠ some (FsNode.symlink u)) :
    resolveName fs (fuel + 2) a = some t := by
  have hstep : fuel + 2 = (fuel + 1) + 1 := rfl
  rw [hstep]
  simp only [resolveName, ha]

/-- The node at a name, when present, is not a symlink. -/
def notSymlinkAtB (fs : LinkFS) (t : String) : Bool :=
  match lookupNode fs t with
  | some (FsNode.symlink _) => false
  | _ => true

/-- Reading `notSymlinkAtB` back as a proposition. -/
theorem notSymlinkAtB_spec (fs : LinkFS) (t : String)
    (h : notSymlinkAtB fs t = true) :
    ∀ u, lookupNode fs t ≠ some (FsNode.symlink u) := by
  intro u hc
  simp [notSymlinkAtB, hc] at h

/-- A benign alias pair: the expected target's node is not itself a symlink,
and the alias is absent, a regular file, or already a direct symlink to the
expected target (in particular not a directory). -/
def safePairB (fs : LinkFS) (aliasName targetName : String) : Bool :=
  notSymlinkAtB fs targetName &&
    (match lookupNode fs aliasName with
     | none => true
     | some FsNode.file => true
     | some (FsNode.symlink u) => u = targetName
     | some FsNode.dir => false)

/-- An alias that is already a direct symlink to a non-symlink expected
target is left alone: no error, no state change, no operations. -/
theorem fixOne_noop (fs : LinkFS) (a t : String)
    (ha : lookupNode fs a = some (FsNode.symlink t))
    (ht : notSymlinkAtB fs t = true) :
    fixOne fs a t = Except.ok (fs, []) := by
  have hres : resolveName fs (fs.length + 1) a = some t := by
    rcases fs with _ | ⟨hd, tl⟩
    · simp [lookupNode] at ha
    · have hlen : (hd :: tl).length + 1 = tl.length + 2 := by simp
      rw [hlen]
      exact resolve_direct _ a t tl.length ha (notSymlinkAtB_spec _ t ht)
  simp [fixOne, ha, hres]

/-- On a benign alias pair, `fixOne` succeeds, leaves the alias as a direct
symlink to the expected target, and touches no other name. -/
theorem fixOne_safe (fs : LinkFS) (a t : String)
    (h : safePairB fs a t = true) :
    ∃ s1 ops, fixOne fs a t = Except.ok (s1, ops) ∧
      lookupNode s1 a = some (FsNode.symlink t) ∧
      ∀ m, m ≠ a → lookupNode s1 m = lookupNode fs m := by
  unfold safePairB at h
  rw [Bool.and_eq_true] at h
  obtain ⟨hT, hA⟩ := h
  cases hl : lookupNode fs a with
  | none =>
    refine ⟨setNode fs a (FsNode.symlink t), [LinkOp.mklink a t], ?_, ?_, ?_⟩
    · simp [fixOne, hl]
    · simp [lookup_setNode]
    · intro m hm; simp [lookup_setNode, hm]
  | some v =>
    cases v with
    | file =>
      refine ⟨setNode fs a (FsNode.symlink t),
        [LinkOp.unlink a, LinkOp.mklink a t], ?_, ?_, ?_⟩
      · simp [fixOne, hl]
      · simp [lookup_setNode]
      · intro m hm; simp [lookup_setNode, hm]
    | dir =>
      rw [hl] at hA
      simp at hA
    | symlink u =>
      rw [hl] at hA
      simp at hA
      subst hA
      exact ⟨fs, [], fixOne_noop fs a u hl hT, hl, fun m _ => rfl⟩

/-- Strings of different lengths differ. -/
theorem str_ne_of_length (a b : String) (h : a.length ≠ b.length) : a ≠ b :=
  fun hc => h (congrArg String.length hc)

/-- The lengths of the four names `_fix_symlinks` works with. -/
theorem armi_names_length (branch : String) :
    (branch ++ "." ++ "db").length = branch.length + 3 ∧
    (branch ++ "." ++ "db" ++ "." ++ "tar.gz").length = branch.length + 10 ∧
    (branch ++ "." ++ "files").length = branch.length + 6 ∧
    (branch ++ "." ++ "files" ++ "." ++ "tar.gz").length = branch.length + 13 := by
  refine ⟨?_, ?_, ?_, ?_⟩ <;>
    simp [String.length_append, show (".").length = 1 from rfl,
      show ("db").length = 2 from rfl, show ("files").length = 5 from rfl,
      show ("tar.gz").length = 6 from rfl]

/-- `safePairB` only looks at the alias and target nodes. -/
theorem safePairB_congr (fsA fsB : LinkFS) (a t : String)
    (hA : lookupNode fsA a = lookupNode fsB a)
    (hT : lookupNode fsA t = lookupNode fsB t) :
    safePairB fsA a t = safePairB fsB a t := by
  unfold safePairB notSymlinkAtB
  rw [hA, hT]

/-- `notSymlinkAtB` only looks at the target node. -/
theorem notSymlinkAtB_congr (fsA fsB : LinkFS) (t : String)
    (h : lookupNode fsA t = lookupNode fsB t) :
    notSymlinkAtB fsA t = notSymlinkAtB fsB t := by
  unfold notSymlinkAtB
  rw [h]

/-- `C7` (amended) -- SymlinkReconciler is idempotent on benign states: if for
each alias pair the expected archive name is not itself a symlink and the
alias is absent, a regular file, or already a direct symlink to its expected
target, then the first run succeeds and a second run raises no error, makes
no change, and returns the state it was given untouched.  (Without these
conditions idempotence fails: see the counterexample, where an alias resolves
to its expected target only through a chain passing through the other
alias.) -/
theorem c7_fix_symlinks_idempotent (branch : String) (fs : LinkFS)
    (h1 : safePairB fs (branch ++ "." ++ "db")
      (branch ++ "." ++ "db" ++ "." ++ "tar.gz") = true)
    (h2 : safePairB fs (branch ++ "." ++ "files")
      (branch ++ "." ++ "files" ++ "." ++ "tar.gz") = true) :
    ∃ r, fix_symlinks branch fs = Except.ok r ∧
      fix_symlinks branch r.1 = Except.ok (r.1, []) := by
  obtain ⟨hn1, hn2, hn3, hn4⟩ := armi_names_length branch
  have ne_a2a1 : branch ++ "." ++ "files" ≠ branch ++ "." ++ "db" :=
    str_ne_of_length _ _ (by rw [hn3, hn1]; omega)
  have ne_a1a2 : branch ++ "." ++ "db" ≠ branch ++ "." ++ "files" :=
    str_ne_of_length _ _ (by rw [hn3, hn1]; omega)
  have ne_t1a1 : branch ++ "." ++ "db" ++ "." ++ "tar.gz" ≠ branch ++ "." ++ "db" :=
    str_ne_of_length _ _ (by rw [hn2, hn1]; omega)
  have ne_t1a2 : branch ++ "." ++ "db" ++ "." ++ "tar.gz" ≠ branch ++ "." ++ "files" :=
    str_ne_of_length _ _ (by rw [hn2, hn3]; omega)
  have ne_t2a1 : branch ++ "." ++ "files" ++ "." ++ "tar.gz" ≠ branch ++ "." ++ "db" :=
    str_ne_of_length _ _ (by rw [hn4, hn1]; omega)
  have ne_t2a2 : branch ++ "." ++ "files" ++ "." ++ "tar.gz" ≠ branch ++ "." ++ "files" :=
    str_ne_of_length _ _ (by rw [hn4, hn3]; omega)
  obtain ⟨s1, ops1, hfix1, hlink1, hpres1⟩ :=
    fixOne_safe fs (branch ++ "." ++ "db")
      (branch ++ "." ++ "db" ++ "." ++ "tar.gz") h1
  have h2' : safePairB s1 (branch ++ "." ++ "files")
      (branch ++ "." ++ "files" ++ "." ++ "tar.gz") = true := by
    rw [safePairB_congr s1 fs _ _ (hpres1 _ ne_a2a1) (hpres1 _ ne_t2a1)]
    exact h2
  obtain ⟨s2, ops2, hfix2, hlink2, hpres2⟩ :=
    fixOne_safe s1 (branch ++ "." ++ "files")
      (branch ++ "." ++ "files" ++ "." ++ "tar.gz") h2'
  refine ⟨(s2, ops1 ++ ops2), ?_, ?_⟩
  · simp [fix_symlinks, hfix1, hfix2]
  · have h1x := h1
    unfold safePairB at h1x
    rw [Bool.and_eq_true] at h1x
    have h2x := h2
    unfold safePairB at h2x
    rw [Bool.and_eq_true] at h2x
    have la1 : lookupNode s2 (branch ++ "." ++ "db") =
        some (FsNode.symlink (branch ++ "." ++ "db" ++ "." ++ "tar.gz")) := by
      rw [hpres2 _ ne_a1a2]
      exact hlink1
    have lt1 : lookupNode s2 (branch ++ "." ++ "db" ++ "." ++ "tar.gz") =
        lookupNode fs (branch ++ "." ++ "db" ++ "." ++ "tar.gz") := by
      rw [hpres2 _ ne_t1a2, hpres1 _ ne_t1a1]
    have nt1 : notSymlinkAtB s2 (branch ++ "." ++ "db" ++ "." ++ "tar.gz") = true := by
      rw [notSymlinkAtB_congr s2 fs _ lt1]
      exact h1x.1
    have lt2 : lookupNode s2 (branch ++ "." ++ "files" ++ "." ++ "tar.gz") =
        lookupNode fs (branch ++ "." ++ "files" ++ "." ++ "tar.gz") := by
      rw [hpres2 _ ne_t2a2, hpres1 _ ne_t2a1]
    have nt2 : notSymlinkAtB s2 (branch ++ "." ++ "files" ++ "." ++ "tar.gz") = true := by
      rw [notSymlinkAtB_congr s2 fs _ lt2]
      exact h2x.1
    have noop1 := fixOne_noop s2 _ _ la1 nt1
    have noop2 := fixOne_noop s2 _ _ hlink2 nt2
    simp [fix_symlinks, noop1, noop2]

/-- Witness for `c7_fix_symlinks_idempotent` at a concrete benign directory:
both archives are regular files, `b.db` is a stale regular file, `b.files` is
absent. -/
theorem c7_fix_symlinks_idempotent_witness :
    ∃ r, fix_symlinks "b" [("b.db", FsNode.file), ("b.db.tar.gz", FsNode.file),
        ("b.files.tar.gz", FsNode.file)] = Except.ok r ∧
      fix_symlinks "b" r.1 = Except.ok (r.1, []) :=
  c7_fix_symlinks_idempotent "b"
    [("b.db", FsNode.file), ("b.db.tar.gz", FsNode.file),
      ("b.files.tar.gz", FsNode.file)]
    (by decide) (by decide)

/-- Running the reconciler twice in sequence (Python would simply call the
function again on the directory the first call left behind). -/
def fixTwice (branch : String) (fs : LinkFS) : Except FsError (LinkFS × List LinkOp) :=
  match fix_symlinks branch fs with
  | Except.error e => Except.error e
  | Except.ok r => fix_symlinks branch r.1

/-- `C7` (counterexample) -- The claim says a second run yields the same final
state, with no errors and no changes.  On a directory where `b.db` is a
symlink to `b.files` and `b.files` is a symlink to `b.db.tar.gz` (both
archives regular files), the first run keeps `b.db` (it resolves, through the
chain, to the expected `b.db.tar.gz`) but rewrites `b.files`; the second run
then finds `b.db` resolving to `b.files.tar.gz`, unlinks it and recreates it:
the second run performs operations and its final state differs from the
first run's at `b.db`. -/
theorem c7_counterexample :
    ((fix_symlinks "b" [("b.db", FsNode.symlink "b.files"),
        ("b.files", FsNode.symlink "b.db.tar.gz"),
        ("b.db.tar.gz", FsNode.file), ("b.files.tar.gz", FsNode.file)]).toOption.map
          (fun r => lookupNode r.1 "b.db") =
        some (some (FsNode.symlink "b.files"))) ∧
      ((fixTwice "b" [("b.db", FsNode.symlink "b.files"),
        ("b.files", FsNode.symlink "b.db.tar.gz"),
        ("b.db.tar.gz", FsNode.file), ("b.files.tar.gz", FsNode.file)]).toOption.map
          (fun r => lookupNode r.1 "b.db") =
        some (some (FsNode.symlink "b.db.tar.gz"))) ∧
      ((fixTwice "b" [("b.db", FsNode.symlink "b.files"),
        ("b.files", FsNode.symlink "b.db.tar.gz"),
        ("b.db.tar.gz", FsNode.file), ("b.files.tar.gz", FsNode.file)]).toOption.map
          (fun r => r.2) ≠ some []) := by
  refine ⟨by decide, by decide, by decide⟩

/-- `C8` (amended) -- For an alias that is a dangling symlink (its target name
has no entry): if the dangling link points anywhere other than the expected
target, the reconciler unlinks it and creates a fresh relative symlink to the
expected target; but if the dangling link already points at the expected
target name, non-strict resolution succeeds and the link is left in place
unchanged (not removed and recreated).  In both cases the alias ends as a
symlink to the expected target name. -/
theorem c8_dangling_symlink (fs : LinkFS) (a t target : String)
    (ha : lookupNode fs a = some (FsNode.symlink t))
    (ht : lookupNode fs t = none) :
    (t = target → fixOne fs a target = Except.ok (fs, [])) ∧
    (t ≠ target → fixOne fs a target =
      Except.ok (setNode (eraseNode fs a) a (FsNode.symlink target),
        [LinkOp.unlink a, LinkOp.mklink a target])) := by
  have hres : resolveName fs (fs.length + 1) a = some t := by
    rcases fs with _ | ⟨hd, tl⟩
    · simp [lookupNode] at ha
    · have hlen : (hd :: tl).length + 1 = tl.length + 2 := by simp
      rw [hlen]
      refine resolve_direct _ a t tl.length ha ?_
      intro u hc
      rw [ht] at hc
      cases hc
  constructor
  · intro hteq
    subst hteq
    exact fixOne_noop fs a t ha (by simp [notSymlinkAtB, ht])
  · intro htne
    simp [fixOne, ha, hres, htne, lookup_eraseNode]

/-- Witness for `c8_dangling_symlink`: `a.db` dangles to the wrong name
`zzz`; the reconciler unlinks it and recreates it towards `a.db.tar.gz`. -/
theorem c8_dangling_symlink_witness :
    fixOne [("a.db", FsNode.symlink "zzz")] "a.db" "a.db.tar.gz" =
      Except.ok (setNode (eraseNode [("a.db", FsNode.symlink "zzz")] "a.db") "a.db"
        (FsNode.symlink "a.db.tar.gz"),
        [LinkOp.unlink "a.db", LinkOp.mklink "a.db" "a.db.tar.gz"]) :=
  (c8_dangling_symlink [("a.db", FsNode.symlink "zzz")] "a.db" "zzz" "a.db.tar.gz"
    rfl rfl).2 (by decide)

/-- `C8` (counterexample) -- The claim says every dangling alias is removed
and recreated.  Here `b.db` is dangling (its target `b.db.tar.gz` does not
exist) but already points at the expected name: non-strict resolution returns
the expected path, so the reconciler performs no operation at all and leaves
the dangling link untouched. -/
theorem c8_counterexample :
    lookupNode [("b.db", FsNode.symlink "b.db.tar.gz")] "b.db.tar.gz" = none ∧
    fixOne [("b.db", FsNode.symlink "b.db.tar.gz")] "b.db" "b.db.tar.gz" =
      Except.ok ([("b.db", FsNode.symlink "b.db.tar.gz")], []) := by
  exact ⟨rfl, rfl⟩
